import Mathlib

/-!
Shallow embedding of `src/counterweight-stack.ts` (package `counterweight-stack`):
a rule-gated LIFO stack whose `pop` succeeds only when the caller supplies a
registered counterweight for the current top element.

Modelling choices:
* The TypeScript class state `items : T[]` and `rules : CounterweightRule<T>[]`
  becomes an explicit record `CounterweightStack T`; mutating methods return the
  new state, queries return a value and leave the state untouched.
* JavaScript arrays are `List T` with the array's end (the stack top) at the
  list's end: `Array.push` appends, `Array.pop` removes the last element,
  `items[items.length - 1]` is `List.getLast?`.
* The imported `deepEqual` from `objects-deep-compare` is an abstract parameter
  `deepEqual : T → T → Bool`; nothing in the source constrains it.
* The guard `topElement === undefined` (line 79 of the source) is modelled by a
  parameter `isUndefined : T → Bool` telling which values of the element type
  are the JavaScript value `undefined` (constantly false when the element type
  does not admit `undefined`).
* `structuredClone` on the immutable rule values is a structural copy, written
  out field by field; on pure values it produces an equal value, and the
  shallow-copy fallback `[...rules]` produces the same list value as well.
-/

namespace CWS

/-- Mirror of the TypeScript interface `CounterweightRule<T>`:
a main element together with the list of elements that may counterweight it. -/
structure CounterweightRule (T : Type) where
  mainElement : T
  counterweights : List T
deriving Repr, DecidableEq

/-- State of the TypeScript class `CounterweightStack<T>`:
the live item sequence (top at the end) and the rule table. -/
structure CounterweightStack (T : Type) where
  items : List T
  rules : List (CounterweightRule T)
deriving Repr, DecidableEq

variable {T : Type}

/-- `structuredClone` applied to the rule array: a structural (deep) copy,
written out field by field as the runtime performs it. -/
def structuredCloneRules (rules : List (CounterweightRule T)) : List (CounterweightRule T) :=
  rules.map (fun r => ⟨r.mainElement, r.counterweights.map (fun cw => cw)⟩)

/-- The constructor: `items` starts empty and the rule table is the deep copy
`structuredClone(rules)`; the `catch` fallback `[...rules]` (a shallow copy)
denotes the same list value in this value-level model, so the constructor is a
single function. -/
def construct (rules : List (CounterweightRule T)) : CounterweightStack T :=
  ⟨[], structuredCloneRules rules⟩

/-- Private method `isValidCounterweight(main, potentialCounterweight)`:
`this.rules.find((r) => deepEqual(r.mainElement, main))`, then `false` when no
rule is found, else `rule.counterweights.some((cw) => deepEqual(cw, potentialCounterweight))`. -/
def isValidCounterweight (deepEqual : T → T → Bool)
    (rules : List (CounterweightRule T)) (main potentialCounterweight : T) : Bool :=
  match rules.find? (fun r => deepEqual r.mainElement main) with
  | none => false
  | some rule => rule.counterweights.any (fun cw => deepEqual cw potentialCounterweight)

/-- `push(item)`: `this.items.push(item)` appends at the top. -/
def push (s : CounterweightStack T) (item : T) : CounterweightStack T :=
  ⟨s.items ++ [item], s.rules⟩

/-- `isEmpty()`: `this.items.length === 0`. -/
def isEmpty (s : CounterweightStack T) : Bool :=
  s.items.length == 0

/-- `size()`: `this.items.length`. -/
def size (s : CounterweightStack T) : Nat :=
  s.items.length

/-- `peek()`: `undefined` when empty, else `this.items[this.items.length - 1]`. -/
def peek (s : CounterweightStack T) : Option T :=
  if isEmpty s then none else s.items.getLast?

/-- `Array.prototype.pop`: removes and returns the last element
(`none` on an empty array). -/
def arrayPop (l : List T) : Option T × List T :=
  (l.getLast?, l.dropLast)

/-- `pop(counterweightAttempt)`: absent on an empty stack; otherwise the top is
read with `peek()`, the source's `topElement === undefined` guard returns
absent when the top is the `undefined` value, and only a successful
`isValidCounterweight(topElement, counterweightAttempt)` check lets
`this.items.pop()` remove and return the top. The `none` branch of `peek` is
unreachable because the stack is non-empty. -/
def pop (deepEqual : T → T → Bool) (isUndefined : T → Bool)
    (s : CounterweightStack T) (counterweightAttempt : T) :
    Option T × CounterweightStack T :=
  if isEmpty s then (none, s)
  else
    match peek s with
    | none => (none, s)
    | some topElement =>
      if isUndefined topElement then (none, s)
      else if isValidCounterweight deepEqual s.rules topElement counterweightAttempt then
        ((arrayPop s.items).1, ⟨(arrayPop s.items).2, s.rules⟩)
      else (none, s)

/-- `clear()`: `this.items = []`; the rule table is kept. -/
def clear (s : CounterweightStack T) : CounterweightStack T :=
  ⟨[], s.rules⟩

/-- `compareTop(item)`: `false` when empty, else `deepEqual(this.peek(), item)`.
The `none` branch is unreachable (`peek` of a non-empty stack is `some`). -/
def compareTop (deepEqual : T → T → Bool) (s : CounterweightStack T) (item : T) : Bool :=
  if isEmpty s then false
  else
    match peek s with
    | none => false
    | some top => deepEqual top item

/-- A sequence of pushes with no intervening pops or clears. -/
def pushAll (s : CounterweightStack T) (l : List T) : CounterweightStack T :=
  l.foldl push s

/-- Caller-side state together with a stack instance: used to express that
mutating the caller's rule data after construction cannot influence the
instance, because construction copied the rules into the instance's own state. -/
structure CallerWorld (T : Type) where
  callerRules : List (CounterweightRule T)
  stack : CounterweightStack T

/-- Construction snapshot: the caller still holds its rule list, the instance
holds the copy made by the constructor. -/
def constructWorld (rules : List (CounterweightRule T)) : CallerWorld T :=
  ⟨rules, construct rules⟩

/-- The caller mutates its own rule array or the rule objects it kept:
modelled as an arbitrary transformation of the caller-side rule value. -/
def mutateCallerRules (w : CallerWorld T) (f : List (CounterweightRule T) → List (CounterweightRule T)) :
    CallerWorld T :=
  ⟨f w.callerRules, w.stack⟩

/-- Push performed on the instance inside a world. -/
def worldPush (w : CallerWorld T) (item : T) : CallerWorld T :=
  ⟨w.callerRules, push w.stack item⟩

/-- A sequence of pushes on the instance inside a world. -/
def worldPushAll (w : CallerWorld T) (l : List T) : CallerWorld T :=
  l.foldl worldPush w

/-! ### Helper lemmas -/

/-- The deep copy of the rule list, being a structural copy of pure values,
is the same value. -/
theorem structuredCloneRules_eq (rules : List (CounterweightRule T)) :
    structuredCloneRules rules = rules := by
  unfold structuredCloneRules
  induction rules with
  | nil => rfl
  | cons r rs ih => simp [ih]

/-- A sequence of pushes appends its items, in order, after the existing ones. -/
theorem pushAll_items (l : List T) (s : CounterweightStack T) :
    (pushAll s l).items = s.items ++ l := by
  induction l generalizing s with
  | nil => simp [pushAll]
  | cons a l ih =>
    show (pushAll (push s a) l).items = s.items ++ a :: l
    rw [ih]
    simp [push]

/-- Pushes never touch the rule table. -/
theorem pushAll_rules (l : List T) (s : CounterweightStack T) :
    (pushAll s l).rules = s.rules := by
  induction l generalizing s with
  | nil => rfl
  | cons a l ih =>
    show (pushAll (push s a) l).rules = s.rules
    rw [ih]
    rfl

/-- A linear scan skips a prefix on which the predicate is everywhere false. -/
theorem find?_append_of_forall_false (p : α → Bool) (l1 l2 : List α)
    (h : ∀ a ∈ l1, p a = false) : (l1 ++ l2).find? p = l2.find? p := by
  induction l1 with
  | nil => rfl
  | cons a l ih =>
    rw [List.cons_append, List.find?_cons_of_neg]
    · exact ih (fun b hb => h b (List.mem_cons_of_mem a hb))
    · simp [h a (List.mem_cons_self a l)]

/-- A stack whose last item exists is non-empty. -/
theorem items_ne_nil_of_getLast? {s : CounterweightStack T} {t : T}
    (h : s.items.getLast? = some t) : s.items ≠ [] := by
  intro hnil
  rw [hnil] at h
  simp at h

/-- On a stack with top element `t`, `pop` reduces to the undefined-guard,
then the counterweight check, then the removal of the last item. -/
theorem pop_of_top (deq : T → T → Bool) (isU : T → Bool)
    (s : CounterweightStack T) (t x : T) (h : s.items.getLast? = some t) :
    pop deq isU s x =
      if isU t then (none, s)
      else if isValidCounterweight deq s.rules t x then
        (some t, ⟨s.items.dropLast, s.rules⟩)
      else (none, s) := by
  have hne : s.items ≠ [] := items_ne_nil_of_getLast? h
  have hlen : s.items.length ≠ 0 := by
    simpa [List.length_eq_zero] using hne
  have hempty : isEmpty s = false := by
    simp [isEmpty, hlen]
  simp [pop, hempty, peek, h, arrayPop]

/-- When the first rule matching `main` is `r`, validity is membership of the
attempt in the counterweights of `r`. -/
theorem isValidCounterweight_of_find? (deq : T → T → Bool)
    {rules : List (CounterweightRule T)} {main : T} {r : CounterweightRule T}
    (h : rules.find? (fun rl => deq rl.mainElement main) = some r) (x : T) :
    isValidCounterweight deq rules main x
      = r.counterweights.any (fun cw => deq cw x) := by
  simp [isValidCounterweight, h]

/-! ### Claim theorems -/

/-- Claim C3: on a non-empty stack whose top element matches no rule
(the linear scan finds nothing), `pop` returns absent for every argument and
leaves the stack — hence its size and its top — unchanged. -/
theorem pop_absent_when_top_has_no_rule (deq : T → T → Bool) (isU : T → Bool)
    (s : CounterweightStack T) (t : T)
    (htop : s.items.getLast? = some t)
    (hnone : s.rules.find? (fun rl => deq rl.mainElement t) = none) :
    ∀ x, pop deq isU s x = (none, s) ∧
      size (pop deq isU s x).2 = size s ∧
      peek (pop deq isU s x).2 = peek s := by
  intro x
  have hv : isValidCounterweight deq s.rules t x = false := by
    simp [isValidCounterweight, hnone]
  rw [pop_of_top deq isU s t x htop, hv]
  cases hU : isU t <;> simp

/-- Witness for C3: rules match only the value 2, the top is 7, so popping
with any attempt (here 2) fails and keeps the single-element stack intact. -/
theorem pop_absent_when_top_has_no_rule_witness :
    pop (fun a b : Nat => a == b) (fun _ => false)
        ⟨[7], [⟨2, [3]⟩]⟩ 2 = (none, ⟨[7], [⟨2, [3]⟩]⟩) ∧
      size (pop (fun a b : Nat => a == b) (fun _ => false)
        ⟨[7], [⟨2, [3]⟩]⟩ 2).2 = size ⟨[7], [⟨2, [3]⟩]⟩ ∧
      peek (pop (fun a b : Nat => a == b) (fun _ => false)
        ⟨[7], [⟨2, [3]⟩]⟩ 2).2 = peek ⟨[7], [⟨2, [3]⟩]⟩ :=
  pop_absent_when_top_has_no_rule (fun a b : Nat => a == b) (fun _ => false)
    ⟨[7], [⟨2, [3]⟩]⟩ 7 (by decide) (by decide) 2

/-- Claim C4: on an empty stack `pop` returns absent for every argument, the
state is unchanged, and the size afterwards is still 0. -/
theorem pop_empty_always_absent (deq : T → T → Bool) (isU : T → Bool)
    (s : CounterweightStack T) (h : s.items = []) (x : T) :
    pop deq isU s x = (none, s) ∧ size (pop deq isU s x).2 = 0 := by
  have hempty : isEmpty s = true := by
    simp [isEmpty, h]
  constructor
  · simp [pop, hempty]
  · simp [pop, hempty, size, h]

/-- Witness for C4: popping the freshly constructed (empty) stack fails and
leaves size 0. -/
theorem pop_empty_always_absent_witness :
    pop (fun a b : Nat => a == b) (fun _ => false)
        (construct [⟨2, [3]⟩]) 3 = (none, construct [⟨2, [3]⟩]) ∧
      size (pop (fun a b : Nat => a == b) (fun _ => false)
        (construct [⟨2, [3]⟩]) 3).2 = 0 :=
  pop_empty_always_absent (fun a b : Nat => a == b) (fun _ => false)
    (construct [⟨2, [3]⟩]) (by decide) 3

/-- Claim C6: `push` has no failure condition and always increases the size by
exactly one, and a sequence of pushes starting from construction yields a size
equal to the number of pushes and a `peek` equal to the most recently pushed
element (`getLast?` of the pushed list, which is `none` only for zero pushes,
matching the absent `peek` of an empty stack). -/
theorem push_always_succeeds_size_peek (rules : List (CounterweightRule T))
    (l : List T) (s : CounterweightStack T) (item : T) :
    size (push s item) = size s + 1 ∧
    size (pushAll (construct rules) l) = l.length ∧
    peek (pushAll (construct rules) l) = l.getLast? := by
  have hitems : (pushAll (construct rules) l).items = l := by
    rw [pushAll_items]
    rfl
  refine ⟨?_, ?_, ?_⟩
  · simp [size, push]
  · simp [size, hitems]
  · cases l with
    | nil => simp [peek, isEmpty, hitems]
    | cons a l => simp [peek, isEmpty, hitems]

/-- Claim C8: `compareTop` is false on an empty stack, and on a non-empty
stack with top `t` it returns exactly the deep-equality verdict between `t`
and the argument, computed with the same `deepEqual` used for rule matching;
its return type is a bare boolean, so it never changes the state. -/
theorem compareTop_false_empty_else_deepEqual (deq : T → T → Bool)
    (s : CounterweightStack T) (item t : T) :
    (s.items = [] → compareTop deq s item = false) ∧
    (s.items.getLast? = some t → compareTop deq s item = deq t item) := by
  constructor
  · intro h
    simp [compareTop, isEmpty, h]
  · intro h
    have hne : s.items ≠ [] := items_ne_nil_of_getLast? h
    have hlen : s.items.length ≠ 0 := by
      simpa [List.length_eq_zero] using hne
    have hempty : isEmpty s = false := by
      simp [isEmpty, hlen]
    simp [compareTop, hempty, peek, h]

/-- Witness for C8: on the empty stack `compareTop` is false; with top 2 it
agrees with deep equality (true on 2). -/
theorem compareTop_false_empty_else_deepEqual_witness :
    (compareTop (fun a b : Nat => a == b) ⟨[], []⟩ 2 = false) ∧
    (compareTop (fun a b : Nat => a == b) ⟨[1, 2], []⟩ 2 = ((2 : Nat) == 2)) :=
  ⟨(compareTop_false_empty_else_deepEqual (fun a b : Nat => a == b)
      ⟨[], []⟩ 2 2).1 (by decide),
   (compareTop_false_empty_else_deepEqual (fun a b : Nat => a == b)
      ⟨[1, 2], []⟩ 2 2).2 (by decide)⟩

/-- Claim C10: when the element type admits the JavaScript value `undefined`
and the top element is that value, the guard `topElement === undefined` makes
`pop` return absent and keep the stack unchanged for every argument, before
the rule table is ever consulted — even if a rule whose main element is
deep-equal to `undefined` lists a matching counterweight. -/
theorem pop_undefined_top_always_absent (deq : T → T → Bool) (isU : T → Bool)
    (s : CounterweightStack T) (t : T)
    (htop : s.items.getLast? = some t) (hU : isU t = true) (x : T) :
    pop deq isU s x = (none, s) := by
  rw [pop_of_top deq isU s t x htop, hU]
  simp

/-- Witness for C10: the element type `Option Nat` models a type admitting
`undefined` (the value `none`); the rule table maps `undefined` to the
counterweight `some 5`, the attempt `some 5` is a valid counterweight by the
rules, and yet popping the `undefined` top fails and changes nothing. -/
theorem pop_undefined_top_always_absent_witness :
    isValidCounterweight (fun a b : Option Nat => a == b)
        [⟨none, [some 5]⟩] none (some 5) = true ∧
    pop (fun a b : Option Nat => a == b) (fun o => o.isNone)
        ⟨[none], [⟨none, [some 5]⟩]⟩ (some 5)
      = (none, ⟨[none], [⟨none, [some 5]⟩]⟩) :=
  ⟨by decide,
   pop_undefined_top_always_absent (fun a b : Option Nat => a == b)
     (fun o => o.isNone) ⟨[none], [⟨none, [some 5]⟩]⟩ none
     (by decide) (by decide) (some 5)⟩

/-- Claim C1: on a non-empty stack whose top `t` is not the `undefined` value
and is deep-equal to the main element of some rule (the linear scan finds
`r`), `pop x` removes and returns the top — shrinking the size by exactly
one — if and only if `x` is deep-equal to at least one counterweight of `r`;
when no counterweight matches, `pop x` is absent and the stack is unchanged. -/
theorem pop_succeeds_iff_counterweight_matches (deq : T → T → Bool)
    (isU : T → Bool) (s : CounterweightStack T) (t x : T)
    (r : CounterweightRule T)
    (htop : s.items.getLast? = some t)
    (hdef : isU t = false)
    (hrule : s.rules.find? (fun rl => deq rl.mainElement t) = some r) :
    ((pop deq isU s x = (some t, ⟨s.items.dropLast, s.rules⟩) ∧
        size ⟨s.items.dropLast, s.rules⟩ + 1 = size s)
      ↔ r.counterweights.any (fun cw => deq cw x) = true)
    ∧ (r.counterweights.any (fun cw => deq cw x) = false →
        pop deq isU s x = (none, s)) := by
  have hne : s.items ≠ [] := items_ne_nil_of_getLast? htop
  have hpos : 0 < s.items.length := List.length_pos.mpr hne
  have hsize : size (⟨s.items.dropLast, s.rules⟩ : CounterweightStack T) + 1
      = size s := by
    simp only [size, List.length_dropLast]
    omega
  have hv := isValidCounterweight_of_find? deq hrule x
  rw [pop_of_top deq isU s t x htop, hdef, hv]
  cases ha : r.counterweights.any (fun cw => deq cw x) <;> simp [ha, hsize]

/-- Witness for C1: with the single rule mapping 2 to counterweights 5 and 6
and 2 on top of the stack, popping with 5 succeeds exactly as the rule says,
and the failure branch holds vacuously. -/
theorem pop_succeeds_iff_counterweight_matches_witness :
    ((pop (fun a b : Nat => a == b) (fun _ => false)
          ⟨[1, 2], [⟨2, [5, 6]⟩]⟩ 5
        = (some 2, ⟨[1], [⟨2, [5, 6]⟩]⟩) ∧
        size (⟨[1], [⟨2, [5, 6]⟩]⟩ : CounterweightStack Nat) + 1
          = size ⟨[1, 2], [⟨2, [5, 6]⟩]⟩)
      ↔ [5, 6].any (fun cw => cw == 5) = true)
    ∧ ([5, 6].any (fun cw => cw == 5) = false →
        pop (fun a b : Nat => a == b) (fun _ => false)
          ⟨[1, 2], [⟨2, [5, 6]⟩]⟩ 5 = (none, ⟨[1, 2], [⟨2, [5, 6]⟩]⟩)) :=
  pop_succeeds_iff_counterweight_matches (fun a b : Nat => a == b)
    (fun _ => false) ⟨[1, 2], [⟨2, [5, 6]⟩]⟩ 2 5 ⟨2, [5, 6]⟩
    (by decide) (by decide) (by decide)

/-- Claim C2: when the rules are a prefix `pre` matching nothing on top,
then a rule `r` matching the top, then anything at all afterwards, the pop
outcome (returned value and resulting item sequence) is the same whatever
the later rules are — later rules with a deep-equal main element are
shadowed — and the validity check consults exactly the counterweights of
`r`, the first matching rule in the original order. -/
theorem later_duplicate_rules_are_shadowed (deq : T → T → Bool)
    (isU : T → Bool) (items : List T)
    (pre post post' : List (CounterweightRule T)) (r : CounterweightRule T)
    (t x : T)
    (htop : items.getLast? = some t)
    (hpre : ∀ r' ∈ pre, deq r'.mainElement t = false)
    (hr : deq r.mainElement t = true) :
    (pop deq isU ⟨items, pre ++ r :: post⟩ x).1
        = (pop deq isU ⟨items, pre ++ r :: post'⟩ x).1 ∧
    (pop deq isU ⟨items, pre ++ r :: post⟩ x).2.items
        = (pop deq isU ⟨items, pre ++ r :: post'⟩ x).2.items ∧
    isValidCounterweight deq (pre ++ r :: post) t x
        = r.counterweights.any (fun cw => deq cw x) := by
  have hfind : ∀ post0 : List (CounterweightRule T),
      (pre ++ r :: post0).find? (fun rl => deq rl.mainElement t) = some r := by
    intro post0
    rw [find?_append_of_forall_false _ pre _ hpre]
    exact List.find?_cons_of_pos post0 hr
  have hv : ∀ post0 : List (CounterweightRule T),
      isValidCounterweight deq (pre ++ r :: post0) t x
        = r.counterweights.any (fun cw => deq cw x) :=
    fun post0 => isValidCounterweight_of_find? deq (hfind post0) x
  rw [pop_of_top deq isU ⟨items, pre ++ r :: post⟩ t x htop,
    pop_of_top deq isU ⟨items, pre ++ r :: post'⟩ t x htop]
  refine ⟨?_, ?_, hv post⟩ <;>
    cases hU : isU t <;>
      cases hA : r.counterweights.any (fun cw => deq cw x) <;>
        simp [hU, hA, hv post, hv post']

/-- Witness for C2: the first rule for main element 2 allows only 5, a later
duplicate rule for 2 allows 7; popping with 7 behaves identically whether the
shadowed rule is present or removed, and validity is decided by the first
rule alone. -/
theorem later_duplicate_rules_are_shadowed_witness :
    (pop (fun a b : Nat => a == b) (fun _ => false)
        ⟨[2], [⟨1, [9]⟩] ++ ⟨2, [5]⟩ :: [⟨2, [7]⟩]⟩ 7).1
      = (pop (fun a b : Nat => a == b) (fun _ => false)
        ⟨[2], [⟨1, [9]⟩] ++ ⟨2, [5]⟩ :: []⟩ 7).1 ∧
    (pop (fun a b : Nat => a == b) (fun _ => false)
        ⟨[2], [⟨1, [9]⟩] ++ ⟨2, [5]⟩ :: [⟨2, [7]⟩]⟩ 7).2.items
      = (pop (fun a b : Nat => a == b) (fun _ => false)
        ⟨[2], [⟨1, [9]⟩] ++ ⟨2, [5]⟩ :: []⟩ 7).2.items ∧
    isValidCounterweight (fun a b : Nat => a == b)
        ([⟨1, [9]⟩] ++ ⟨2, [5]⟩ :: [⟨2, [7]⟩]) 2 7
      = [5].any (fun cw => cw == 7) :=
  later_duplicate_rules_are_shadowed (fun a b : Nat => a == b) (fun _ => false)
    [2] [⟨1, [9]⟩] [⟨2, [7]⟩] [] ⟨2, [5]⟩ 2 7
    (by decide) (by decide) (by decide)

/-- Claim C5: after `clear` the size is 0, `peek` is absent, every `pop` is
absent and leaves the cleared stack unchanged, and the rule table survives
untouched: pushing an element whose first matching rule accepts `x` (and
which is not the `undefined` value) and then popping with `x` succeeds. -/
theorem clear_empties_and_rules_survive (deq : T → T → Bool) (isU : T → Bool)
    (s : CounterweightStack T) (item x : T)
    (hdef : isU item = false)
    (hv : isValidCounterweight deq s.rules item x = true) :
    size (clear s) = 0 ∧
    peek (clear s) = none ∧
    (∀ y, pop deq isU (clear s) y = (none, clear s)) ∧
    (clear s).rules = s.rules ∧
    pop deq isU (push (clear s) item) x = (some item, clear s) := by
  refine ⟨rfl, ?_, ?_, rfl, ?_⟩
  · simp [peek, clear, isEmpty]
  · intro y
    simp [pop, clear, isEmpty]
  · have htop : (push (clear s) item).items.getLast? = some item := by
      simp [push, clear]
    rw [pop_of_top deq isU (push (clear s) item) item x htop, hdef]
    simp [push, clear, hv]

/-- Witness for C5: the hypotheses hold for the rule table mapping 4 to 5
(item 4, attempt 5, nothing is the `undefined` value), and after clearing a
stack holding 9, pushing 4 and popping with 5 returns 4 and re-empties the
stack. -/
theorem clear_empties_and_rules_survive_witness :
    ((fun _ : Nat => false) 4 = false) ∧
    isValidCounterweight (fun a b : Nat => a == b) [⟨4, [5]⟩] 4 5 = true ∧
    pop (fun a b : Nat => a == b) (fun _ => false)
        (push (clear ⟨[9], [⟨4, [5]⟩]⟩) 4) 5
      = (some 4, clear ⟨[9], [⟨4, [5]⟩]⟩) :=
  ⟨by decide, by decide,
   (clear_empties_and_rules_survive (fun a b : Nat => a == b) (fun _ => false)
      ⟨[9], [⟨4, [5]⟩]⟩ 4 5 (by decide) (by decide)).2.2.2.2⟩

/-- Claim C7: in this embedding every operation is a total function — nothing
can be raised — and `pop` reports every rejection solely through the absent
result: it returns `none` exactly when the stack is empty, or the top is the
`undefined` value, or the rule scan finds no rule for the top, or the scan
finds a rule none of whose counterweights matches the attempt; moreover a
rejected `pop` leaves the state unchanged. -/
theorem pop_total_absent_taxonomy (deq : T → T → Bool) (isU : T → Bool)
    (s : CounterweightStack T) (x : T) :
    ((pop deq isU s x).1 = none ↔
      (s.items = [] ∨
        ∃ t, s.items.getLast? = some t ∧
          (isU t = true ∨
            s.rules.find? (fun rl => deq rl.mainElement t) = none ∨
            ∃ r, s.rules.find? (fun rl => deq rl.mainElement t) = some r ∧
              r.counterweights.any (fun cw => deq cw x) = false))) ∧
    ((pop deq isU s x).1 = none → (pop deq isU s x).2 = s) := by
  by_cases hnil : s.items = []
  · have hempty : isEmpty s = true := by
      simp [isEmpty, hnil]
    have hpop : pop deq isU s x = (none, s) := by
      simp [pop, hempty]
    rw [hpop]
    exact ⟨⟨fun _ => Or.inl hnil, fun _ => rfl⟩, fun _ => rfl⟩
  · obtain ⟨t, ht⟩ : ∃ t, s.items.getLast? = some t :=
      Option.isSome_iff_exists.mp (List.getLast?_isSome.mpr hnil)
    cases hU : isU t with
    | true =>
      have hpop : pop deq isU s x = (none, s) := by
        rw [pop_of_top deq isU s t x ht, hU]
        simp
      rw [hpop]
      exact ⟨⟨fun _ => Or.inr ⟨t, ht, Or.inl hU⟩, fun _ => rfl⟩, fun _ => rfl⟩
    | false =>
      cases hf : s.rules.find? (fun rl => deq rl.mainElement t) with
      | none =>
        have hv : isValidCounterweight deq s.rules t x = false := by
          simp [isValidCounterweight, hf]
        have hpop : pop deq isU s x = (none, s) := by
          rw [pop_of_top deq isU s t x ht, hU, hv]
          simp
        rw [hpop]
        exact ⟨⟨fun _ => Or.inr ⟨t, ht, Or.inr (Or.inl hf)⟩, fun _ => rfl⟩,
          fun _ => rfl⟩
      | some r =>
        have hv := isValidCounterweight_of_find? deq hf x
        cases hA : r.counterweights.any (fun cw => deq cw x) with
        | false =>
          have hpop : pop deq isU s x = (none, s) := by
            rw [pop_of_top deq isU s t x ht, hU, hv, hA]
            simp
          rw [hpop]
          exact ⟨⟨fun _ => Or.inr ⟨t, ht, Or.inr (Or.inr ⟨r, hf, hA⟩)⟩,
            fun _ => rfl⟩, fun _ => rfl⟩
        | true =>
          have hpop : pop deq isU s x
              = (some t, ⟨s.items.dropLast, s.rules⟩) := by
            rw [pop_of_top deq isU s t x ht, hU, hv, hA]
            simp
          rw [hpop]
          have hnotnone : ¬ ((some t, (⟨s.items.dropLast, s.rules⟩ :
              CounterweightStack T)).1 = none) := by
            simp
          refine ⟨⟨fun h => absurd h hnotnone, fun hd => ?_⟩,
            fun h => absurd h hnotnone⟩
          exfalso
          rcases hd with hnil' | ⟨t', ht', hcase⟩
          · exact hnil hnil'
          · rw [ht] at ht'
            obtain rfl : t = t' := Option.some.inj ht'
            rcases hcase with hU' | hf' | ⟨r', hf'', hA'⟩
            · rw [hU] at hU'
              exact Bool.false_ne_true hU'
            · rw [hf] at hf'
              cases hf'
            · rw [hf] at hf''
              obtain rfl : r = r' := Option.some.inj hf''
              rw [hA] at hA'
              cases hA'

/-- Witness for C7: on the empty stack with an empty rule table, the rejected
pop reports absence through the return value and leaves the state as it was. -/
theorem pop_total_absent_taxonomy_witness :
    (pop (fun a b : Nat => a == b) (fun _ => false) ⟨[], []⟩ 0).1 = none ∧
    (pop (fun a b : Nat => a == b) (fun _ => false) ⟨[], []⟩ 0).2 = ⟨[], []⟩ :=
  ⟨(pop_total_absent_taxonomy (fun a b : Nat => a == b) (fun _ => false)
      ⟨[], []⟩ 0).1.mpr (Or.inl rfl),
   (pop_total_absent_taxonomy (fun a b : Nat => a == b) (fun _ => false)
      ⟨[], []⟩ 0).2 (by decide)⟩

/-- Claim C9: the pop outcome of an instance is a function of the instance
state alone; since construction stored its own copy of the rules, any later
transformation of the caller-side rule value leaves every subsequent pop
outcome unchanged, and the stored copy equals the construction-time value. -/
theorem caller_rule_mutation_has_no_effect (deq : T → T → Bool)
    (isU : T → Bool) (rules : List (CounterweightRule T))
    (f : List (CounterweightRule T) → List (CounterweightRule T))
    (l : List T) (x : T) :
    pop deq isU
        (mutateCallerRules (worldPushAll (constructWorld rules) l) f).stack x
      = pop deq isU (worldPushAll (constructWorld rules) l).stack x ∧
    (construct rules).rules = rules :=
  ⟨rfl, structuredCloneRules_eq rules⟩

end CWS
